import Mathlib

/-!
Verification of the panel-schedule normalization engine
(`app/schemas/panel_ir.py`, `app/skills/ocr_panel.py`,
`app/skills/ocr_enhanced.py`, `app/db.py`).

Strings are modelled as `List Char` internally; Python floats are modelled
as exact rationals (`Rat`); fallible constructors return `Except String`.
Python `str.upper` is modelled on the ASCII range plus the one non-ASCII
character the code manipulates (the phase glyph); Python `\w`, `\d`, `\s`
are modelled on their ASCII ranges, which covers every input the claims
mention.
-/

/-- Python `str.upper`, restricted to ASCII plus the phase glyph. -/
def pyUpperChar (c : Char) : Char :=
  if c = 'ø' then 'Ø' else c.toUpper

/-- Uppercase a string (list of chars). -/
def upperL (s : List Char) : List Char := s.map pyUpperChar

/-- Python whitespace (the characters `str.strip` removes and `\s` matches). -/
def isPySpace (c : Char) : Bool :=
  c = ' ' || c = '\t' || c = '\n' || c = '\r' || c = '\x0b' || c = '\x0c'

/-- Python `str.strip()` with no argument. -/
def trimL (s : List Char) : List Char :=
  (((s.dropWhile isPySpace).reverse).dropWhile isPySpace).reverse

/-- Python substring test `pat in s`. -/
def containsSub (pat : List Char) : List Char → Bool
  | [] => pat.isEmpty
  | c :: cs => pat.isPrefixOf (c :: cs) || containsSub pat cs

/-- Fuel-driven body of `replaceAll` (structural recursion on the fuel so
that the kernel can evaluate it; every step shortens the string, so fuel
equal to the length always suffices). -/
def replaceAllF (pat : List Char) : Nat → List Char → List Char
  | 0, s => s
  | _, [] => []
  | fuel + 1, c :: cs =>
    if pat ≠ [] ∧ pat.isPrefixOf (c :: cs) then
      replaceAllF pat fuel (List.drop pat.length (c :: cs))
    else
      c :: replaceAllF pat fuel cs

/-- Python `s.replace(pat, "")`: delete every non-overlapping occurrence of
`pat`, scanning left to right. -/
def replaceAll (pat : List Char) (s : List Char) : List Char :=
  replaceAllF pat s.length s

/-- Python `s.startswith(c)` for a single-character needle. -/
def startsWithChar (c : Char) : List Char → Bool
  | [] => false
  | d :: _ => d = c

/-- Value of Python `int` on a run of decimal digits. -/
def toNatDigits (ds : List Char) : Nat :=
  ds.foldl (fun a c => a * 10 + (c.toNat - 48)) 0

/- ===== HeaderBlock._normalize_phase_value (panel_ir.py) ===== -/

/-- The cleaning pipeline of `_normalize_phase_value`:
`str(raw).strip().upper()` followed by
`.replace("Ø","").replace("PHASE","").replace("PH","").replace("O","").strip()`. -/
def cleanPhase (s : List Char) : List Char :=
  trimL (replaceAll "O".data (replaceAll "PH".data (replaceAll "PHASE".data
    (replaceAll "Ø".data (upperL (trimL s))))))

/-- The branch structure of `_normalize_phase_value` applied to the cleaned
string `s`: set-membership tests, `startswith` tests, then the fallback line
`return "1PH" if "SINGLE" in s else ("3PH" if "THREE" in s else s)`. -/
def phaseDispatch (s : List Char) : String :=
  if s = "SINGLE".data ∨ s = "SINGLE-".data ∨ s = "SINGLE PH".data ∨
     s = "1".data ∨ s = "1-".data then "1PH"
  else if s = "THREE".data ∨ s = "THREE-".data ∨ s = "THREE PH".data ∨
     s = "3".data ∨ s = "3-".data then "3PH"
  else if startsWithChar '1' s then "1PH"
  else if startsWithChar '3' s then "3PH"
  else if containsSub "SINGLE".data s then "1PH"
  else if containsSub "THREE".data s then "3PH"
  else String.mk s

/-- `HeaderBlock._normalize_phase_value`. `none` models Python `None`. -/
def normalize_phase_value (raw : Option String) : String :=
  match raw with
  | none => ""
  | some t => phaseDispatch (cleanPhase t.data)

/- ===== HeaderBlock._normalize_mcb_value (panel_ir.py) ===== -/

/-- A regex word character (`\w`), ASCII range. -/
def isWordC (c : Char) : Bool := c.isAlphanum || c = '_'

/-- After `\s*` consumed its whitespace, the branch of `A?\b` that takes the
literal `A`: the next char must be `A` and the position after it must be a
word boundary (prev char `A` is a word char, so the following char must be
absent or a non-word char). -/
def mcbCheckA (rest2 : List Char) : Bool :=
  match rest2 with
  | c :: rest3 =>
    c = 'A' && (match rest3 with | [] => true | d :: _ => !(isWordC d))
  | [] => false

/-- The branch of `A?\b` that skips the optional `A`. `prevWord` says whether
the character before the current position is a word character (a digit when
no whitespace was consumed, whitespace otherwise). -/
def mcbCheckNoA (prevWord : Bool) (rest2 : List Char) : Bool :=
  if prevWord then
    match rest2 with | [] => true | d :: _ => !(isWordC d)
  else
    match rest2 with | [] => false | d :: _ => isWordC d

/-- Backtracking of the greedy `\s*` in `(\d+)\s*A?\b`: try consuming `m`
whitespace characters, then `m-1`, ..., then `0`. Succeeds when any choice
lets `A?\b` succeed. -/
def mcbTailM (afterDigits : List Char) (m : Nat) : Bool :=
  let rest2 := afterDigits.drop m
  let ok := mcbCheckA rest2 || mcbCheckNoA (m = 0) rest2
  match m with
  | 0 => ok
  | mm + 1 => ok || mcbTailM afterDigits mm

/-- Whether `\s*A?\b` can match starting right after the digit group. -/
def mcbTailOk (afterDigits : List Char) : Bool :=
  mcbTailM afterDigits ((afterDigits.takeWhile isPySpace).length)

/-- Backtracking of the greedy `\d+`: try the digit-prefix lengths
`k, k-1, ..., 1`; the first length whose tail matches fixes the group. -/
def mcbTryK (s : List Char) (k : Nat) : Option Nat :=
  match k with
  | 0 => none
  | kk + 1 =>
    if mcbTailOk (s.drop (kk + 1)) then some (toNatDigits (s.take (kk + 1)))
    else mcbTryK s kk

/-- Match of `(\d+)\s*A?\b` anchored at the start of `s`, returning
`int(group(1))`. -/
def mcbMatchAt (s : List Char) : Option Nat :=
  mcbTryK s ((s.takeWhile Char.isDigit).length)

/-- `re.search(r"(\d+)\s*A?\b", s)`: leftmost start position wins. -/
def searchAmps : List Char → Option Nat
  | [] => none
  | c :: cs =>
    match mcbMatchAt (c :: cs) with
    | some n => some n
    | none => searchAmps cs

/-- The `mlo_hints` tuple of `_normalize_mcb_value`. -/
def mloHints : List String :=
  ["MLO", "MAIN LUG", "MAIN LUGS", "LUGS ONLY",
   "NO MAIN", "NO MCB", "NOT MCB", "NOT A MCB", "NOT A MCB PANEL",
   "NOT BREAKER", "MAIN LUG ONLY"]

/-- `HeaderBlock._normalize_mcb_value`. -/
def normalize_mcb_value (raw : Option String) : String :=
  match raw with
  | none => "MLO"
  | some t =>
    let s := upperL (trimL t.data)
    if mloHints.any (fun hint => containsSub hint.data s) then "MLO"
    else if containsSub "NOT".data s &&
        (containsSub "MCB".data s || containsSub "MAIN".data s ||
         containsSub "BREAKER".data s) then "MLO"
    else
      match searchAmps s with
      | some amps => toString amps ++ "A"
      | none =>
        if containsSub "MCB".data s || containsSub "BREAKER".data s then "MLO"
        else "MLO"

/- ===== CircuitRecord (panel_ir.py) =====

Pydantic v2 validates fields in definition order and a field validator only
sees already-validated fields in `info.data`. In `CircuitRecord` the fields
are declared in the order
`ckt, side, excel_row, breaker_amps, load_amps, poles, phA, phB, phC,
description`, so

  * `_parity` (a validator on `ckt`, the first field) reads
    `info.data.get("side")` and always gets `None`;
  * `_ph_consistency` (a validator on `poles`) reads `phA`, `phB`, `phC`,
    all declared after `poles`, and always gets `None` for each.

The embedding therefore calls these checks with `none` for the
not-yet-validated fields, exactly as the Python runtime does. -/

inductive Side
  | odd
  | even
deriving DecidableEq, Repr

structure CircuitRecord where
  ckt : Int
  side : Side
  excel_row : Int
  breaker_amps : Rat
  load_amps : Rat
  poles : Option Int
  phA : Option Bool
  phB : Option Bool
  phC : Option Bool
  description : Option String
deriving DecidableEq, Repr

/-- `CircuitRecord._parity` as a function of the validated value and of
`info.data.get("side")`. -/
def parityCheck (v : Int) (sideData : Option Side) : Except String Int :=
  match sideData with
  | some Side.odd =>
    if v % 2 = 0 then Except.error "Odd side must contain odd circuit numbers."
    else Except.ok v
  | some Side.even =>
    if v % 2 ≠ 0 then Except.error "Even side must contain even circuit numbers."
    else Except.ok v
  | none => Except.ok v

/-- `CircuitRecord._ph_consistency` as a function of the validated value and
of `info.data.get("phA"/"phB"/"phC")`; Python `bool(None)` is `False`. -/
def phConsistencyCheck (v : Int) (a b c : Option Bool) : Except String Int :=
  let cnt : Int :=
    (if a.getD false then 1 else 0) + (if b.getD false then 1 else 0) +
    (if c.getD false then 1 else 0)
  if cnt ≠ 0 ∧ cnt ≠ v then Except.error "poles and phases set True disagree."
  else Except.ok v

/-- `CircuitRecord.limit_description_length`. -/
def limitDescription (v : Option String) : Option String :=
  match v with
  | none => none
  | some d => some (String.mk ((upperL (trimL d.data)).take 39))

/-- Python `abs` on a rational. -/
def ratAbs (q : Rat) : Rat := if q < 0 then -q else q

/-- The epsilon of `CircuitRecord._breaker_vs_load` (`eps = 1e-6`). -/
def epsBL : Rat := 1 / 1000000

/-- Validation of the `poles` field: the `Field(ge=1, le=3)` bound check
followed by `_ph_consistency` (which sees no phase flags; they are declared
after `poles`). -/
def polesCheck (poles : Option Int) : Except String (Option Int) :=
  match poles with
  | none => Except.ok none
  | some p =>
    if ¬ (1 ≤ p ∧ p ≤ 3) then Except.error "poles out of range"
    else (phConsistencyCheck p none none none).map some

/-- Construction of a `CircuitRecord`: the `Field` bound checks and field
validators in pydantic field order, then the `mode="after"` model validator
`_breaker_vs_load`. -/
def mkCircuitRecord (ckt : Int) (side : Side) (excel_row : Int)
    (breaker_amps load_amps : Rat) (poles : Option Int)
    (phA phB phC : Option Bool) (description : Option String) :
    Except String CircuitRecord :=
  -- ckt: Field(ge=1, le=84), then _parity (side not yet validated)
  if ¬ (1 ≤ ckt ∧ ckt ≤ 84) then Except.error "ckt out of range" else
  match parityCheck ckt none with
  | Except.error e => Except.error e
  | Except.ok _ =>
    -- excel_row: Field(ge=12, le=53)
    if ¬ (12 ≤ excel_row ∧ excel_row ≤ 53) then Except.error "excel_row out of range" else
    -- breaker_amps, load_amps: Field(ge=0)
    if ¬ (0 ≤ breaker_amps) then Except.error "breaker_amps out of range" else
    if ¬ (0 ≤ load_amps) then Except.error "load_amps out of range" else
    -- poles: Field(ge=1, le=3), then _ph_consistency (phase flags not yet validated)
    (polesCheck poles).bind
    (fun poles2 =>
      let desc := limitDescription description
      -- model validator _breaker_vs_load (both fields are required, so the
      -- None check of the Python code cannot fire)
      if ratAbs (breaker_amps - load_amps) ≤ epsBL then
        Except.error "breaker_amps must not equal load_amps."
      else
        Except.ok ⟨ckt, side, excel_row, breaker_amps, load_amps, poles2,
                   phA, phB, phC, desc⟩)

/- ===== PanelScheduleIR (panel_ir.py) ===== -/

/-- `NameValuePair` (values restricted to the textual case used here). -/
structure NameValuePair where
  name_cell : String
  value_cell : String
  name_text : String
  value : Option String
deriving DecidableEq, Repr

/-- `HeaderBlock` as a record. Its own cell-label validators are not embedded
(no claim concerns them); its two static normalizers are embedded above as
`normalize_mcb_value` and `normalize_phase_value`. -/
structure HeaderBlock where
  panel_name : String
  left_params : List NameValuePair
  right_params : List NameValuePair
  right_unused_value : Option String
deriving DecidableEq, Repr

structure PanelScheduleIR where
  version : String
  header : HeaderBlock
  circuits : List CircuitRecord
deriving DecidableEq, Repr

/-- `expected_row = 11 + ((c.ckt + 1) // 2)` from `_circuit_rules`. -/
def expectedRow (ckt : Int) : Int := 11 + (ckt + 1) / 2

/-- The loop body of `PanelScheduleIR._circuit_rules`: duplicate check against
the `seen` set, then the row-formula check, per record in list order. -/
def circuitRulesGo (seen : List Int) : List CircuitRecord → Except String Unit
  | [] => Except.ok ()
  | c :: rest =>
    if c.ckt ∈ seen then Except.error "Duplicate circuit"
    else if c.excel_row ≠ expectedRow c.ckt then Except.error "wrong row"
    else circuitRulesGo (c.ckt :: seen) rest

/-- `PanelScheduleIR._circuit_rules`. -/
def circuitRules (items : List CircuitRecord) : Except String (List CircuitRecord) :=
  (circuitRulesGo [] items).map (fun _ => items)

/-- Assembly of a `PanelScheduleIR` (the `circuits` field validator is the
only validator of the model). -/
def mkPanelScheduleIR (version : String) (header : HeaderBlock)
    (circuits : List CircuitRecord) : Except String PanelScheduleIR :=
  (circuitRules circuits).map (fun cs => ⟨version, header, cs⟩)

/- ===== CIRCUIT_RE and parse_circuits_from_lines (ocr_panel.py) =====

CIRCUIT_RE is
  ^(?P<num>\d{1,3})(?:[A-C]?)?\s*[-:.\s]?\s*(?P<desc>.+?)
   (?:\s+(?P<load>[\d.]+)\s*(?:kVA|kW|VA|W|A)?)?
   (?:\s+(?P<amps>\d{1,4})\s*A(?:mp)?s?)?
   (?:\s+(?P<poles>[123])\s*P(?:ole)?)?.*$        (IGNORECASE, .match)

Backtracking facts used by this embedding (checked against CPython):
  * Everything after `desc` is optional or `.*$`, so the lazy `desc` always
    captures exactly one character once the separator chain leaves at least
    one character, and the whole match then always succeeds.
  * The separator chain `(?:[A-C]?)?\s*[-:.\s]?\s*` explores its choices in
    greedy depth-first order; the first assignment leaving a non-empty
    remainder wins.
  * Each optional tail group either matches at the current position with its
    greedy quantifiers, or is skipped consuming nothing; no backtracking
    re-enters an earlier group because the rest of the pattern always
    succeeds. -/

/-- `[A-C]` with IGNORECASE. -/
def isABC (c : Char) : Bool :=
  ('A' ≤ c && c ≤ 'C') || ('a' ≤ c && c ≤ 'c')

/-- The separator class `[-:.\s]`. -/
def isSepClass (c : Char) : Bool :=
  c = '-' || c = ':' || c = '.' || isPySpace c

/-- Remainders after an optional single-character class, in greedy preference
order (take the character first, then skip it). -/
def optClassChar (cls : Char → Bool) (s : List Char) : List (List Char) :=
  match s with
  | [] => [[]]
  | c :: cs => if cls c then [cs, c :: cs] else [c :: cs]

/-- Remainders after a greedy `\s*`, longest consumption first. -/
def wsOptions (s : List Char) : List (List Char) :=
  let m := (s.takeWhile isPySpace).length
  (List.range (m + 1)).reverse.map (fun k => s.drop k)

/-- All remainders after `(?:[A-C]?)?\s*[-:.\s]?\s*`, in the backtracking
order of the regex engine (depth-first, greedy choices first). -/
def sepCandidates (rest : List Char) : List (List Char) :=
  (optClassChar isABC rest).flatMap (fun r1 =>
    (wsOptions r1).flatMap (fun r2 =>
      (optClassChar isSepClass r2).flatMap (fun r3 => wsOptions r3)))

/-- Backtracking of `\d{1,3}`: try `k, k-1, ..., 1` digits; for each, the
first separator assignment leaving a non-empty remainder fixes `num`,
`desc` (one character) and the position after `desc`. -/
def circuitNumTry (line : List Char) (k : Nat) :
    Option (List Char × List Char × List Char) :=
  match k with
  | 0 => none
  | kk + 1 =>
    match (sepCandidates (line.drop (kk + 1))).find? (fun r => ¬ r.isEmpty) with
    | some r => some (line.take (kk + 1), r.take 1, r.drop 1)
    | none => circuitNumTry line kk

/-- Case-insensitive literal prefix test (`pat` given uppercase). -/
def prefixCI (pat : String) (s : List Char) : Bool :=
  pat.data.isPrefixOf (upperL s)

/-- The unit alternation `(?:kVA|kW|VA|W|A)?`, IGNORECASE, alternatives in
pattern order, optional. Returns the remainder. -/
def consumeUnit (s : List Char) : List Char :=
  if prefixCI "KVA" s then s.drop 3
  else if prefixCI "KW" s then s.drop 2
  else if prefixCI "VA" s then s.drop 2
  else if prefixCI "W" s then s.drop 1
  else if prefixCI "A" s then s.drop 1
  else s

/-- Optional group `(?:\s+(?P<load>[\d.]+)\s*(?:kVA|kW|VA|W|A)?)?`: present
iff at least one whitespace char is followed by at least one `[\d.]` char;
greedy runs; returns the captured load and the remainder. -/
def parseOpt1 (s : List Char) : Option (List Char) × List Char :=
  let w := (s.takeWhile isPySpace).length
  if w = 0 then (none, s)
  else
    let body := s.drop w
    let ld := body.takeWhile (fun c => c.isDigit || c = '.')
    if ld.isEmpty then (none, s)
    else
      let after1 := body.drop ld.length
      let after2 := after1.drop ((after1.takeWhile isPySpace).length)
      (some ld, consumeUnit after2)

/-- Optional group `(?:\s+(?P<amps>\d{1,4})\s*A(?:mp)?s?)?`: present iff
whitespace, then a digit run of length 1..4 (a longer run makes every
`\d{1,4}` choice hit a digit where `A` is required, so the group is skipped),
then `\s*`, then `A`, then optional `mp`, optional `s` (IGNORECASE). -/
def parseOpt2 (s : List Char) : Option (List Char) × List Char :=
  let w := (s.takeWhile isPySpace).length
  if w = 0 then (none, s)
  else
    let body := s.drop w
    let run := body.takeWhile Char.isDigit
    if run.isEmpty || run.length > 4 then (none, s)
    else
      let after1 := body.drop run.length
      let after2 := after1.drop ((after1.takeWhile isPySpace).length)
      match after2 with
      | c :: rest =>
        if c = 'A' || c = 'a' then
          let rest2 := if prefixCI "MP" rest then rest.drop 2 else rest
          let rest3 :=
            match rest2 with
            | d :: ds => if d = 'S' || d = 's' then ds else rest2
            | [] => rest2
          (some run, rest3)
        else (none, s)
      | [] => (none, s)

/-- Optional group `(?:\s+(?P<poles>[123])\s*P(?:ole)?)?`: whitespace, a pole
digit, `\s*`, then a mandatory `P` (IGNORECASE). Only the captured digit
matters afterwards (the trailing `.*$` swallows the rest). -/
def parseOpt3 (s : List Char) : Option Char :=
  let w := (s.takeWhile isPySpace).length
  if w = 0 then none
  else
    match s.drop w with
    | c :: rest =>
      if c = '1' || c = '2' || c = '3' then
        match rest.drop ((rest.takeWhile isPySpace).length) with
        | p :: _ => if p = 'P' || p = 'p' then some c else none
        | [] => none
      else none
    | [] => none

/-- The capture groups of a CIRCUIT_RE match. -/
structure CircuitGroups where
  num : List Char
  desc : List Char
  load : Option (List Char)
  amps : Option (List Char)
  poles : Option Char
deriving DecidableEq, Repr

/-- `CIRCUIT_RE.match(line)`. -/
def circuitMatch (line : List Char) : Option CircuitGroups :=
  let run := line.takeWhile Char.isDigit
  match circuitNumTry line (min 3 run.length) with
  | none => none
  | some (num, desc, after) =>
    let o1 := parseOpt1 after
    let o2 := parseOpt2 o1.2
    let poles := parseOpt3 o2.2
    some ⟨num, desc, o1.1, o2.1, poles⟩

/-- One row of the circuit table. -/
structure CircuitDict where
  number : String
  description : String
  load : String
  breaker_amps : String
  breaker_poles : String
deriving DecidableEq, Repr

/-- The dict built for a matched line in the first pass of
`parse_circuits_from_lines` (Python truthiness of a group is non-emptiness). -/
def circuitEntry (g : CircuitGroups) : CircuitDict :=
  ⟨toString (toNatDigits g.num),
   if g.desc.isEmpty then "MISSING" else String.mk (trimL g.desc),
   match g.load with | some l => String.mk l | none => "MISSING",
   match g.amps with | some a => String.mk a | none => "MISSING",
   match g.poles with | some p => String.mk [p] | none => "MISSING"⟩

/-- First pass of `parse_circuits_from_lines`: the `found_circuits` dict (as
a lookup function, later lines overwrite earlier ones) and `max_circuit_num`
(initially 0). -/
def firstPass (lines : List String) : (Nat → Option CircuitDict) × Nat :=
  lines.foldl
    (fun acc ln =>
      match circuitMatch ln.data with
      | some g =>
        let n := toNatDigits g.num
        (fun k => if k = n then some (circuitEntry g) else acc.1 k, max acc.2 n)
      | none => acc)
    (fun _ => none, 0)

/-- The total circuit count: derived from the maximum found circuit when no
count is supplied, otherwise the supplied count clamped to [18, 84] and
forced even by incrementing. -/
def circuitCount (lines : List String) (number_of_ckts : Option Int) : Nat :=
  match number_of_ckts with
  | none => max 18 (min 84 ((((firstPass lines).2 + 1) / 2) * 2))
  | some c =>
    let c2 : Int := max 18 (min 84 c)
    (if c2 % 2 ≠ 0 then c2 + 1 else c2).toNat

/-- The all-MISSING dict appended for a circuit the OCR did not produce. -/
def fillerDict (i : Nat) : CircuitDict :=
  ⟨toString i, "MISSING", "MISSING", "MISSING", "MISSING"⟩

/-- The entry emitted for circuit `i` in the output loop. -/
def buildEntry (lines : List String) (i : Nat) : CircuitDict :=
  match (firstPass lines).1 i with
  | some c => c
  | none => fillerDict i

/-- `parse_circuits_from_lines(lines, number_of_ckts)`. -/
def parse_circuits_from_lines (lines : List String)
    (number_of_ckts : Option Int) : List CircuitDict :=
  (List.range' 1 (circuitCount lines number_of_ckts)).map (buildEntry lines)

/- ===== ocr_enhanced.py: confidence levels and field extraction ===== -/

inductive ConfidenceLevel
  | high
  | medium
  | low
  | missing
deriving DecidableEq, Repr

structure FieldExtraction where
  field_name : String
  value : Option String
  confidence : Rat
  confidence_level : ConfidenceLevel
  source_line : Option String
  match_score : Rat
deriving DecidableEq, Repr

/-- Python `s.split(":", 1)`: parts before and after the first colon, when a
colon exists. -/
def breakAtColon : List Char → Option (List Char × List Char)
  | [] => none
  | c :: cs =>
    if c = ':' then some ([], cs)
    else (breakAtColon cs).map (fun p => (c :: p.1, p.2))

/-- Python `haystack.index(needle)` (first index where the needle starts). -/
def subIndex (pat : List Char) : List Char → Nat
  | [] => 0
  | c :: cs => if pat.isPrefixOf (c :: cs) then 0 else 1 + subIndex pat cs

/-- Python `s.split()[0] if s.split() else s`. -/
def firstToken (s : List Char) : List Char :=
  let t := s.dropWhile isPySpace
  let w := t.takeWhile (fun c => !(isPySpace c))
  if w.isEmpty then s else w

/-- Fuel-driven body of the whitespace split (structural recursion on the
fuel; every step shortens the string, so fuel equal to the length always
suffices). -/
def pyWordsF : Nat → List Char → List (List Char)
  | 0, _ => []
  | _, [] => []
  | fuel + 1, c :: cs =>
    if isPySpace c then pyWordsF fuel cs
    else
      ((c :: cs).takeWhile (fun d => !(isPySpace d))) ::
        pyWordsF fuel ((c :: cs).dropWhile (fun d => !(isPySpace d)))

/-- Python whitespace-split `s.split()`. -/
def pyWords (s : List Char) : List (List Char) := pyWordsF s.length s

/-- Python `" ".join(value.split())`. -/
def joinWords (s : List Char) : List Char :=
  List.intercalate [' '] (pyWords s)

/-- One `(line, variant)` step of the loop body of `find_fuzzy_field`.
`score_fn` models `fuzzy_match_score` (difflib.SequenceMatcher.ratio, an
external library left as a parameter). The running state is
`(best_match, best_score, best_line)`. -/
def fuzzyStep (score_fn : String → String → Rat) (threshold : Rat)
    (st : Option String × Rat × Option String) (line variant : String) :
    Option String × Rat × Option String :=
  let line_upper := upperL line.data
  let variant_upper := upperL variant.data
  if containsSub variant_upper line_upper then
    match breakAtColon line.data with
    | some p =>
      if (1 : Rat) > st.2.1 then (some (String.mk (trimL p.2)), 1, some line)
      else st
    | none =>
      let idx := subIndex variant_upper line_upper
      let after_variant := trimL (line.data.drop (idx + variant.data.length))
      let av2 := after_variant.dropWhile
        (fun c => c = ':' || c = '=' || c = '-' || c = ' ' || c = '\t')
      if ¬ av2.isEmpty then
        if (9/10 : Rat) > st.2.1 then
          (some (String.mk (firstToken av2)), 9/10, some line)
        else st
      else st
  else
    let score := score_fn (String.mk line_upper) (String.mk variant_upper)
    if score ≥ threshold then
      match breakAtColon line.data with
      | some p =>
        if score > st.2.1 then (some (String.mk (trimL p.2)), score, some line)
        else st
      | none => st
    else st

/-- `find_fuzzy_field(lines, field_variants, threshold)`. -/
def find_fuzzy_field (score_fn : String → String → Rat) (lines : List String)
    (variants : List String) (threshold : Rat) :
    Option String × Rat × Option String :=
  lines.foldl
    (fun st line => variants.foldl (fun st2 v => fuzzyStep score_fn threshold st2 line v) st)
    (none, 0, none)

/-- `extract_with_confidence(lines, pattern, field_variants)`. The compiled
regex argument is modelled by `patternSearch` (its `.search` returning
`group(1)`); `score_fn` models the difflib scorer used by the fuzzy
fallback. -/
def extract_with_confidence (score_fn : String → String → Rat)
    (lines : List String) (patternSearch : String → Option String)
    (field_variants : List String) : FieldExtraction :=
  let full_text := String.intercalate "\n" lines
  let fallback : FieldExtraction :=
    let r := find_fuzzy_field score_fn lines field_variants (7/10)
    match r.1 with
    | some v =>
      if v ≠ "" ∧ r.2.1 > 0 then
        let level :=
          if r.2.1 ≥ 8/10 then ConfidenceLevel.high
          else if r.2.1 ≥ 1/2 then ConfidenceLevel.medium
          else ConfidenceLevel.low
        ⟨field_variants.headD "", some v, r.2.1, level, r.2.2, r.2.1⟩
      else ⟨field_variants.headD "", none, 0, ConfidenceLevel.missing, none, 0⟩
    | none => ⟨field_variants.headD "", none, 0, ConfidenceLevel.missing, none, 0⟩
  match patternSearch full_text with
  | some g =>
    let value := String.mk (joinWords (trimL g.data))
    if value ≠ "" then
      let source_line := lines.find? (fun line => containsSub value.data line.data)
      ⟨field_variants.headD "", some value, 95/100, ConfidenceLevel.high,
       source_line, 1⟩
    else fallback
  | none => fallback

/- The voltage field pattern of `extract_panel_specs_enhanced`:
`(?:voltage|volt)\s*:?\s*(\d+(?:[/Y]\d+)?)\s*v?(?:olts?)?` (IGNORECASE).
After the field word, the chain `\s* :? \s*` is deterministic (characters
given back by backtracking can never become the digit `\d+` needs), the
first digit run is greedy, and the optional `(?:[/Y]\d+)?` extends the
capture only when the separator is immediately followed by a digit;
everything after the group is optional and cannot fail. -/

/-- Match of the voltage pattern tail after the field word, returning the
captured group. -/
def voltTail (rest : List Char) : Option (List Char) :=
  let r1 := rest.drop ((rest.takeWhile isPySpace).length)
  let r2 := match r1 with | ':' :: t => t | _ => r1
  let r3 := r2.drop ((r2.takeWhile isPySpace).length)
  let d1 := r3.takeWhile Char.isDigit
  if d1.isEmpty then none
  else
    match r3.drop d1.length with
    | c :: t =>
      if c = '/' || c = 'Y' || c = 'y' then
        let d2 := t.takeWhile Char.isDigit
        if d2.isEmpty then some d1 else some (d1 ++ c :: d2)
      else some d1
    | [] => some d1

/-- Match of the voltage pattern anchored at `s` (alternation
`voltage|volt` in order, with backtracking into the shorter word). -/
def voltMatchAt (s : List Char) : Option (List Char) :=
  if prefixCI "VOLTAGE" s then
    match voltTail (s.drop 7) with
    | some g => some g
    | none => if prefixCI "VOLT" s then voltTail (s.drop 4) else none
  else if prefixCI "VOLT" s then voltTail (s.drop 4)
  else none

/-- `re.search` of the voltage pattern: leftmost match wins. -/
def voltSearch : List Char → Option (List Char)
  | [] => none
  | c :: cs =>
    match voltMatchAt (c :: cs) with
    | some g => some g
    | none => voltSearch cs

/-- The `field_configs["voltage"]["pattern"].search`, returning `group(1)`. -/
def voltagePatternSearch (full_text : String) : Option String :=
  (voltSearch full_text.data).map String.mk

/-- The `field_configs["voltage"]["variants"]`. -/
def voltageVariants : List String := ["VOLTAGE", "VOLT", "V"]

/-- A concrete stand-in for the difflib scorer, used only to instantiate
theorems at concrete inputs (the claims never reach the fuzzy path). -/
def zeroScore : String → String → Rat := fun _ _ => 0

/- ===== db.py: update_task_parameters (in-memory branch) =====

Python dicts are modelled as association lists with unique keys;
`d[k] = v` replaces in place or appends (`dictSet`), `d.update(new)` folds
`dictSet` over the new items (`dictUpdate`), `d.get(k)` is `List.lookup`.
The database branch of `update_task_parameters` performs the identical
task_id logic on the JSON-decoded parameters; the in-memory branch is the
one embedded. Timestamps are provided by the caller (`now`); logging is not
modelled. Python truthiness of the stored task_id value is the `truthy`
parameter (for strings: non-emptiness). -/

/-- Python `d[k] = v` on an association-list dict. -/
def dictSet {V : Type} : List (String × V) → String → V → List (String × V)
  | [], k, v => [(k, v)]
  | (k2, v2) :: rest, k, v =>
    if k2 = k then (k, v) :: rest else (k2, v2) :: dictSet rest k v

/-- Python `d.update(new)`. -/
def dictUpdate {V : Type} (d new : List (String × V)) : List (String × V) :=
  new.foldl (fun acc kv => dictSet acc kv.1 kv.2) d

structure TaskRecord (V : Type) where
  task_type : String
  parameters : List (String × V)
  status : String
  created_at : String
  updated_at : String

/-- Python truthiness of a string. -/
def pyStrTruthy (s : String) : Bool := !s.isEmpty

/-- `update_task_parameters(session_id, new_parameters)` on the in-memory
store; returns the Python return value and the new store. -/
def update_task_parameters {V : Type} (truthy : V → Bool)
    (store : List (String × TaskRecord V)) (session_id : String)
    (new_parameters : List (String × V)) (now : String) :
    Bool × List (String × TaskRecord V) :=
  match store.lookup session_id with
  | some task =>
    if task.status = "active" then
      let existing_task_id := task.parameters.lookup "task_id"
      let new2 :=
        if (new_parameters.lookup "task_id").isSome then
          new_parameters.filter (fun kv => kv.1 ≠ "task_id")
        else new_parameters
      let params1 := dictUpdate task.parameters new2
      let params2 :=
        match existing_task_id with
        | some tid => if truthy tid then dictSet params1 "task_id" tid else params1
        | none => params1
      (true, dictSet store session_id
        ⟨task.task_type, params2, task.status, task.created_at, now⟩)
    else (false, store)
  | none => (false, store)

/- ===== Theorems ===== -/

/-- If `circuitRulesGo` succeeds, every record in the list satisfies the row
formula. -/
theorem circuitRulesGo_ok_rows (l : List CircuitRecord) :
    ∀ seen : List Int, circuitRulesGo seen l = Except.ok () →
      ∀ c ∈ l, c.excel_row = expectedRow c.ckt := by
  induction l with
  | nil => intro seen _ c hc; cases hc
  | cons a rest ih =>
    intro seen h c hc
    simp only [circuitRulesGo] at h
    by_cases h1 : a.ckt ∈ seen
    · rw [if_pos h1] at h; cases h
    · rw [if_neg h1] at h
      by_cases h2 : a.excel_row ≠ expectedRow a.ckt
      · rw [if_pos h2] at h; cases h
      · rw [if_neg h2] at h
        push_neg at h2
        rcases List.mem_cons.mp hc with hceq | hcm
        · rw [hceq]; exact h2
        · exact ih (a.ckt :: seen) h c hcm

/-- C4 (confirmed): at assembly time every circuit record with number `n`
must sit on row `11 + (n + 1) / 2`; if any record violates the formula the
whole `PanelScheduleIR` construction fails, and in particular circuits 83
and 84 both require row 53. -/
theorem C4_row_formula :
    (∀ (version : String) (header : HeaderBlock) (circuits : List CircuitRecord),
        (∃ c ∈ circuits, c.excel_row ≠ expectedRow c.ckt) →
        (mkPanelScheduleIR version header circuits).isOk = false) ∧
    expectedRow 83 = 53 ∧ expectedRow 84 = 53 := by
  refine ⟨?_, by decide, by decide⟩
  rintro v hd circuits ⟨c, hc, hrow⟩
  rcases hgo : circuitRulesGo [] circuits with e | u
  · simp [mkPanelScheduleIR, circuitRules, hgo, Except.map, Except.isOk,
      Except.toBool]
  · cases u
    exact absurd (circuitRulesGo_ok_rows circuits [] hgo c hc) hrow

/-- Witness for C4: a single record for circuit 83 on row 52 (row 53 is the
required one) makes assembly fail. -/
theorem C4_row_formula_witness :
    (mkPanelScheduleIR "1.0.0" ⟨"LP-1", [], [], none⟩
      [⟨83, Side.odd, 52, 20, 5, none, none, none, none, none⟩]).isOk = false :=
  C4_row_formula.1 "1.0.0" ⟨"LP-1", [], [], none⟩ _
    ⟨⟨83, Side.odd, 52, 20, 5, none, none, none, none, none⟩,
     by simp, by decide⟩

/-- C1 (amended): under the field-bound hypotheses, a `CircuitRecord`
construction succeeds exactly when `|breaker_amps - load_amps|` exceeds the
epsilon `1e-6`; equal pairs always fail, but near-equal pairs within the
epsilon are rejected as well (the rule is a tolerance band, not exact
equality). -/
theorem C1_breaker_load_tolerance
    (ckt : Int) (side : Side) (row : Int) (b l : Rat) (poles : Option Int)
    (pa pb pc : Option Bool) (d : Option String)
    (hc : 1 ≤ ckt ∧ ckt ≤ 84) (hr : 12 ≤ row ∧ row ≤ 53)
    (hb : 0 ≤ b) (hl : 0 ≤ l) (hp : ∀ p ∈ poles, 1 ≤ p ∧ p ≤ 3) :
    (mkCircuitRecord ckt side row b l poles pa pb pc d).isOk = true ↔
      ¬ (ratAbs (b - l) ≤ epsBL) := by
  unfold mkCircuitRecord
  rw [if_neg (not_not_intro hc)]
  simp only [parityCheck]
  rw [if_neg (not_not_intro hr), if_neg (not_not_intro hb),
      if_neg (not_not_intro hl)]
  have hpc : polesCheck poles = Except.ok poles := by
    cases poles with
    | none => rfl
    | some p =>
      simp only [polesCheck]
      rw [if_neg (not_not_intro (hp p rfl))]
      simp [phConsistencyCheck, Except.map]
  rw [hpc]
  by_cases heps : ratAbs (b - l) ≤ epsBL
  · simp [Except.bind, Except.toBool, heps]
  · simp [Except.bind, Except.toBool, heps]

/-- Witness for C1: circuit 1 on side odd, row 12, breaker 20 A, load 5 A
constructs successfully (the amounts differ by more than the epsilon). -/
theorem C1_breaker_load_tolerance_witness :
    (mkCircuitRecord 1 Side.odd 12 20 5 none none none none none).isOk = true :=
  (C1_breaker_load_tolerance 1 Side.odd 12 20 5 none none none none none
      (by decide) (by decide) (by with_unfolding_all decide)
      (by with_unfolding_all decide) (by intro p hp; cases hp)).mpr
    (by with_unfolding_all decide)

/-- Counterexample for C1 as stated: breaker 1 A and load `1 + 5e-7` A are
not equal, yet the construction is rejected, so it is false that every pair
of non-equal amounts passes the breaker-vs-load rule. -/
theorem C1_breaker_load_counterexample :
    (mkCircuitRecord 1 Side.odd 12 1 (1 + 1/2000000) none none none none
        none).isOk = false ∧
      (1 : Rat) ≠ 1 + 1/2000000 := by
  with_unfolding_all decide

/-- C2 (code bug): a record with `poles = 2` and all three phase flags set
`True` is accepted. Pydantic validates fields in definition order, so the
`_ph_consistency` validator on `poles` never sees `phA`, `phB`, `phC`
(declared after `poles`) and counts zero set flags. -/
theorem C2_ph_consistency_dead_code :
    (mkCircuitRecord 1 Side.odd 12 20 5 (some 2) (some true) (some true)
      (some true) none).isOk = true := by
  with_unfolding_all decide

/-- C3 (code bug): a record with `side = "odd"` and the even circuit number 2
is accepted. Pydantic validates fields in definition order, so the `_parity`
validator on `ckt` (the first field) never sees `side` and checks nothing. -/
theorem C3_parity_dead_code :
    (mkCircuitRecord 2 Side.odd 12 20 5 none none none none none).isOk = true := by
  with_unfolding_all decide

/-- C6 (amended): on the lines `["VOLTAGE: 480Y/277V"]` the voltage field
extractor takes the regex path and returns value `"480"` (the pattern
`(\d+(?:[/Y]\d+)?)` cannot extend the capture across the `Y/` separator
pair), confidence 0.95 (at least 0.9), level HIGH, with the input line as
provenance; this holds for every fuzzy scorer since the fallback is never
reached. -/
theorem C6_voltage_extraction (score_fn : String → String → Rat) :
    extract_with_confidence score_fn ["VOLTAGE: 480Y/277V"]
        voltagePatternSearch voltageVariants =
      ⟨"VOLTAGE", some "480", 95/100, ConfidenceLevel.high,
       some "VOLTAGE: 480Y/277V", 1⟩ ∧
    ((95 : Rat)/100 ≥ 9/10) := by
  exact ⟨rfl, by norm_num⟩

/-- Counterexample for C6 as stated: the extracted value is `"480"`, not the
full token `"480Y/277V"` the claim expects. -/
theorem C6_voltage_counterexample :
    (extract_with_confidence zeroScore ["VOLTAGE: 480Y/277V"]
        voltagePatternSearch voltageVariants).value = some "480" ∧
    (some "480" : Option String) ≠ some "480Y/277V" := by
  exact ⟨rfl, by decide⟩

/-- C8 (amended): the main-breaker normalizer returns `"MLO"` for every
input containing a lug-only phrase (case-insensitive substring), `"MLO"`
for an absent value, and always outputs either the literal `"MLO"` or
`"<integer>A"`; an integer is emitted only when the regex
`(\d+)\s*A?\b` finds digits followed (after optional whitespace and an
optional `A`) by a word boundary — a bare integer glued to other word
characters, as in `"480V"`, yields `"MLO"` instead. Scenario inputs:
`"MLO"`, `"Main Lug Only"`, `"800"`, `"600A"`. -/
theorem C8_mcb_normalizer :
    (∀ raw : String,
        (∃ hint ∈ mloHints, containsSub hint.data (upperL (trimL raw.data)) = true) →
        normalize_mcb_value (some raw) = "MLO") ∧
    (∀ raw : Option String, normalize_mcb_value raw = "MLO" ∨
        ∃ n : Nat, normalize_mcb_value raw = toString n ++ "A") ∧
    normalize_mcb_value none = "MLO" ∧
    normalize_mcb_value (some "MLO") = "MLO" ∧
    normalize_mcb_value (some "Main Lug Only") = "MLO" ∧
    normalize_mcb_value (some "800") = "800A" ∧
    normalize_mcb_value (some "600A") = "600A" := by
  refine ⟨?_, ?_, rfl, by decide, by decide, by decide, by decide⟩
  · rintro raw ⟨hint, hmem, hsub⟩
    simp only [normalize_mcb_value]
    rw [if_pos (List.any_eq_true.mpr ⟨hint, hmem, hsub⟩)]
  · intro raw
    match raw with
    | none => exact Or.inl rfl
    | some t =>
      rcases hsa : searchAmps (upperL (trimL t.data)) with _ | n
      · simp only [normalize_mcb_value, hsa]
        split_ifs <;> exact Or.inl rfl
      · simp only [normalize_mcb_value, hsa]
        split_ifs <;> first
          | exact Or.inl rfl
          | exact Or.inr ⟨n, rfl⟩

/-- Witness for C8: an input containing the lug-only phrase `"MAIN LUG"`
normalizes to `"MLO"`. -/
theorem C8_mcb_normalizer_witness :
    normalize_mcb_value (some "Panel is main lug type") = "MLO" :=
  C8_mcb_normalizer.1 "Panel is main lug type" ⟨"MAIN LUG", by decide, by decide⟩

/-- Counterexample for C8 as stated: `"480V"` contains the integer substring
480 and no lug-only phrase, yet the normalizer returns `"MLO"`, not
`"480A"` (the regex requires a word boundary after the optional `A`). -/
theorem C8_mcb_counterexample :
    normalize_mcb_value (some "480V") = "MLO" ∧ "MLO" ≠ "480A" := by
  exact ⟨by decide, by decide⟩

/-- On a cleaned string starting with `'1'`, the dispatch returns `"1PH"`. -/
theorem phaseDispatch_start1 (u : List Char)
    (h : startsWithChar '1' u = true) : phaseDispatch u = "1PH" := by
  unfold phaseDispatch
  split_ifs with h1 h2
  · rfl
  · rcases h2 with h2 | h2 | h2 | h2 | h2 <;> subst h2 <;>
      exact absurd h (by decide)
  · rfl

/-- On a cleaned string starting with `'3'`, the dispatch returns `"3PH"`. -/
theorem phaseDispatch_start3 (u : List Char)
    (h : startsWithChar '3' u = true) : phaseDispatch u = "3PH" := by
  unfold phaseDispatch
  split_ifs with h1 h2 h3
  · rcases h1 with h1 | h1 | h1 | h1 | h1 <;> subst h1 <;>
      exact absurd h (by decide)
  · rfl
  · -- a string cannot start with both characters
    cases u with
    | nil => exact Bool.noConfusion h
    | cons c cs =>
      have hc1 : c = '1' := by simpa [startsWithChar] using h3
      have hc3 : c = '3' := by simpa [startsWithChar] using h
      rw [hc1] at hc3
      exact absurd hc3 (by decide)
  · rfl

/-- On a cleaned string that starts with neither digit and contains
`"SINGLE"`, the dispatch returns `"1PH"`. -/
theorem phaseDispatch_single (u : List Char)
    (h1 : startsWithChar '1' u = false) (h3 : startsWithChar '3' u = false)
    (hs : containsSub "SINGLE".data u = true) : phaseDispatch u = "1PH" := by
  unfold phaseDispatch
  split_ifs with g1 g2 g3 g4
  · rfl
  · rcases g2 with g2 | g2 | g2 | g2 | g2 <;> subst g2 <;>
      exact absurd hs (by decide)
  · rfl
  · rw [h3] at g4; exact Bool.noConfusion g4
  · rfl

/-- On a cleaned string that starts with neither digit, contains `"THREE"`
and not `"SINGLE"`, the dispatch returns `"3PH"`. -/
theorem phaseDispatch_three (u : List Char)
    (h1 : startsWithChar '1' u = false) (h3 : startsWithChar '3' u = false)
    (hsng : containsSub "SINGLE".data u = false)
    (hthr : containsSub "THREE".data u = true) : phaseDispatch u = "3PH" := by
  unfold phaseDispatch
  split_ifs with g1 g2 g3 g4 g5
  · rcases g1 with g1 | g1 | g1 | g1 | g1 <;> subst g1 <;>
      first
        | exact absurd hsng (by decide)
        | exact absurd h1 (by decide)
  · rfl
  · rw [h1] at g3; exact Bool.noConfusion g3
  · rfl
  · rw [hsng] at g5; exact Bool.noConfusion g5
  · rfl

/-- On a cleaned string recognized by none of the rules, the dispatch
returns the cleaned string itself. -/
theorem phaseDispatch_passthrough (u : List Char)
    (h1 : startsWithChar '1' u = false) (h3 : startsWithChar '3' u = false)
    (hsng : containsSub "SINGLE".data u = false)
    (hthr : containsSub "THREE".data u = false) :
    phaseDispatch u = String.mk u := by
  unfold phaseDispatch
  split_ifs with g1 g2 g3 g4 g5 g6
  · rcases g1 with g1 | g1 | g1 | g1 | g1 <;> subst g1 <;>
      first
        | exact absurd hsng (by decide)
        | exact absurd h1 (by decide)
  · rcases g2 with g2 | g2 | g2 | g2 | g2 <;> subst g2 <;>
      first
        | exact absurd hthr (by decide)
        | exact absurd h3 (by decide)
  · rw [h1] at g3; exact Bool.noConfusion g3
  · rw [h3] at g4; exact Bool.noConfusion g4
  · rw [hsng] at g5; exact Bool.noConfusion g5
  · rw [hthr] at g6; exact Bool.noConfusion g6
  · rfl

/-- C7 (amended): the phase normalizer first cleans the input (uppercase,
strip, delete `Ø`, `PHASE`, `PH`, `O`, strip); a cleaned token starting with
`'1'` maps to `"1PH"` and one starting with `'3'` to `"3PH"`; otherwise a
token containing `"SINGLE"` maps to `"1PH"`, then one containing `"THREE"`
to `"3PH"`; any other input is returned as its cleaned form — uppercased
with the glyphs and phase words removed, not unchanged apart from case.
Scenario inputs: `"1Ø"`, `"THREE PHASE"`, `"3"`. -/
theorem C7_phase_normalizer :
    (∀ s : String, startsWithChar '1' (cleanPhase s.data) = true →
        normalize_phase_value (some s) = "1PH") ∧
    (∀ s : String, startsWithChar '3' (cleanPhase s.data) = true →
        normalize_phase_value (some s) = "3PH") ∧
    (∀ s : String, startsWithChar '1' (cleanPhase s.data) = false →
        startsWithChar '3' (cleanPhase s.data) = false →
        containsSub "SINGLE".data (cleanPhase s.data) = true →
        normalize_phase_value (some s) = "1PH") ∧
    (∀ s : String, startsWithChar '1' (cleanPhase s.data) = false →
        startsWithChar '3' (cleanPhase s.data) = false →
        containsSub "SINGLE".data (cleanPhase s.data) = false →
        containsSub "THREE".data (cleanPhase s.data) = true →
        normalize_phase_value (some s) = "3PH") ∧
    (∀ s : String, startsWithChar '1' (cleanPhase s.data) = false →
        startsWithChar '3' (cleanPhase s.data) = false →
        containsSub "SINGLE".data (cleanPhase s.data) = false →
        containsSub "THREE".data (cleanPhase s.data) = false →
        normalize_phase_value (some s) = String.mk (cleanPhase s.data)) ∧
    normalize_phase_value (some "1Ø") = "1PH" ∧
    normalize_phase_value (some "THREE PHASE") = "3PH" ∧
    normalize_phase_value (some "3") = "3PH" :=
  ⟨fun s h => phaseDispatch_start1 _ h,
   fun s h => phaseDispatch_start3 _ h,
   fun s h1 h3 hs => phaseDispatch_single _ h1 h3 hs,
   fun s h1 h3 hsng hthr => phaseDispatch_three _ h1 h3 hsng hthr,
   fun s h1 h3 hsng hthr => phaseDispatch_passthrough _ h1 h3 hsng hthr,
   by decide, by decide, by decide⟩

/-- Witness for C7: concrete instances of each quantified clause — `"1X"`
(starts with 1), `"3X"` (starts with 3), `"A SINGLE"` (contains SINGLE),
`"A THREE"` (contains THREE), `"ABC"` (passthrough of the cleaned form). -/
theorem C7_phase_normalizer_witness :
    normalize_phase_value (some "1X") = "1PH" ∧
    normalize_phase_value (some "3X") = "3PH" ∧
    normalize_phase_value (some "A SINGLE") = "1PH" ∧
    normalize_phase_value (some "A THREE") = "3PH" ∧
    normalize_phase_value (some "ABC") = "ABC" :=
  ⟨C7_phase_normalizer.1 "1X" (by decide),
   C7_phase_normalizer.2.1 "3X" (by decide),
   C7_phase_normalizer.2.2.1 "A SINGLE" (by decide) (by decide) (by decide),
   C7_phase_normalizer.2.2.2.1 "A THREE" (by decide) (by decide) (by decide)
     (by decide),
   C7_phase_normalizer.2.2.2.2.1 "ABC" (by decide) (by decide) (by decide)
     (by decide)⟩

/-- Counterexample for C7 as stated: the unrecognized input `"TWO PHASE"` is
not passed through merely uppercased — the normalizer also deletes the
substrings `"PHASE"` and `"O"` and returns `"TW"`. -/
theorem C7_phase_counterexample :
    normalize_phase_value (some "TWO PHASE") = "TW" ∧ "TW" ≠ "TWO PHASE" := by
  exact ⟨by decide, by decide⟩

/-- C5 (amended): `parse_circuits_from_lines` always returns exactly
`circuitCount` entries for positions 1..N — N even and clamped to [18, 84],
derived from the maximum found circuit (rounded up to even) when no count is
declared, else the declared count clamped and forced even — and the entry at
position `j` is the parsed dict for circuit `j+1` when one was found,
otherwise a filler whose `number` field is the position (as a string) and
whose other four fields are all `"MISSING"`. Scenario: lines describing only
circuit 5 with no declared count give 18 entries with only entry 5
populated. -/
theorem C5_table_shape :
    (∀ (lines : List String) (cnt : Option Int),
      (parse_circuits_from_lines lines cnt).length = circuitCount lines cnt ∧
      circuitCount lines cnt % 2 = 0 ∧
      18 ≤ circuitCount lines cnt ∧ circuitCount lines cnt ≤ 84 ∧
      (cnt = none → circuitCount lines cnt =
        max 18 (min 84 ((((firstPass lines).2 + 1) / 2) * 2))) ∧
      (∀ c : Int, cnt = some c → (circuitCount lines cnt : Int) =
        (if (max 18 (min 84 c)) % 2 ≠ 0 then max 18 (min 84 c) + 1
         else max 18 (min 84 c))) ∧
      (∀ j : Nat, (parse_circuits_from_lines lines cnt)[j]? =
        if j < circuitCount lines cnt then some (buildEntry lines (j + 1))
        else none) ∧
      (∀ j : Nat, (firstPass lines).1 j = none →
        buildEntry lines j = fillerDict j) ∧
      (∀ (j : Nat) (c : CircuitDict), (firstPass lines).1 j = some c →
        buildEntry lines j = c)) ∧
    parse_circuits_from_lines ["5 - LIGHTING"] none =
      (List.range' 1 18).map (fun i =>
        if i = 5 then ⟨"5", "L", "MISSING", "MISSING", "MISSING"⟩
        else fillerDict i) := by
  refine ⟨?_, by decide⟩
  intro lines cnt
  refine ⟨?_, ?_, ?_, ?_, ?_, ?_, ?_, ?_, ?_⟩
  · simp [parse_circuits_from_lines]
  · rcases cnt with _ | c
    · simp only [circuitCount]
      have h2 : (((firstPass lines).2 + 1) / 2) * 2 % 2 = 0 :=
        Nat.mul_mod_left _ 2
      omega
    · simp only [circuitCount]
      split_ifs with h <;> omega
  · rcases cnt with _ | c
    · simp only [circuitCount]; omega
    · simp only [circuitCount]; split_ifs with h <;> omega
  · rcases cnt with _ | c
    · simp only [circuitCount]; omega
    · simp only [circuitCount]; split_ifs with h <;> omega
  · rintro rfl; rfl
  · rintro c rfl
    simp only [circuitCount]
    split_ifs with h <;> omega
  · intro j
    by_cases hj : j < circuitCount lines cnt
    · rw [if_pos hj]
      simp only [parse_circuits_from_lines, List.getElem?_map,
        List.getElem?_range' 1 1 hj]
      simp [Nat.add_comm]
    · rw [if_neg hj]
      refine List.getElem?_eq_none ?_
      simp only [parse_circuits_from_lines, List.length_map,
        List.length_range']
      omega
  · intro j hj; simp [buildEntry, hj]
  · intro j c hj; simp [buildEntry, hj]

/-- Counterexample for C5 as stated: with input lines describing only
circuit 5 and no declared count, the first output entry is a filler whose
`number` field is `"1"`, not `"MISSING"` — so a non-parsed entry does not
have every field set to the sentinel. -/
theorem C5_filler_counterexample :
    (parse_circuits_from_lines ["5 - LIGHTING"] none)[0]? =
      some ⟨"1", "MISSING", "MISSING", "MISSING", "MISSING"⟩ ∧
    "1" ≠ "MISSING" := by
  exact ⟨by decide, by decide⟩

/-- Witness for C5: the quantified clauses instantiated on the scenario
input. -/
theorem C5_table_shape_witness :
    (parse_circuits_from_lines ["5 - LIGHTING"] none).length =
      circuitCount ["5 - LIGHTING"] none ∧
    circuitCount ["5 - LIGHTING"] none % 2 = 0 ∧
    circuitCount ["5 - LIGHTING"] none =
      max 18 (min 84 ((((firstPass ["5 - LIGHTING"]).2 + 1) / 2) * 2)) :=
  ⟨(C5_table_shape.1 ["5 - LIGHTING"] none).1,
   (C5_table_shape.1 ["5 - LIGHTING"] none).2.1,
   (C5_table_shape.1 ["5 - LIGHTING"] none).2.2.2.2.1 rfl⟩

/-- C10 (confirmed): every entry of the output table is the built entry for
some position 1..N, so circuits parsed with numbers above the clamped count
are dropped; concretely, the line `"25 - KITCHEN"` parses into the
`found_circuits` dict, but with a declared count of 10 (clamped to 18) its
dict appears nowhere in the output. -/
theorem C10_overflow_dropped :
    (∀ (lines : List String) (cnt : Option Int),
      ∀ entry ∈ parse_circuits_from_lines lines cnt,
        ∃ i : Nat, 1 ≤ i ∧ i ≤ circuitCount lines cnt ∧
          entry = buildEntry lines i) ∧
    (firstPass ["25 - KITCHEN"]).1 25 =
      some ⟨"25", "K", "MISSING", "MISSING", "MISSING"⟩ ∧
    circuitCount ["25 - KITCHEN"] (some 10) = 18 ∧
    (⟨"25", "K", "MISSING", "MISSING", "MISSING"⟩ : CircuitDict) ∉
      parse_circuits_from_lines ["25 - KITCHEN"] (some 10) := by
  refine ⟨?_, by decide, by decide, by decide⟩
  intro lines cnt entry he
  simp only [parse_circuits_from_lines, List.mem_map] at he
  obtain ⟨i, hi, rfl⟩ := he
  obtain ⟨j, hj, rfl⟩ := List.mem_range'.mp hi
  exact ⟨1 + 1 * j, by omega, by omega, rfl⟩

/-- Witness for C10: the first output entry of the scenario is the built
entry for some position within the clamped count. -/
theorem C10_overflow_dropped_witness :
    ∃ i : Nat, 1 ≤ i ∧ i ≤ circuitCount ["25 - KITCHEN"] (some 10) ∧
      fillerDict 1 = buildEntry ["25 - KITCHEN"] i :=
  C10_overflow_dropped.1 ["25 - KITCHEN"] (some 10) (fillerDict 1) (by decide)

/-- Setting a key makes it look up to the new value. -/
theorem lookup_dictSet_self {V : Type} (d : List (String × V)) (k : String)
    (v : V) : (dictSet d k v).lookup k = some v := by
  induction d with
  | nil => simp [dictSet]
  | cons kv rest ih =>
    obtain ⟨k2, v2⟩ := kv
    by_cases h : k2 = k
    · subst h; simp [dictSet]
    · have hbe : (k == k2) = false := beq_eq_false_iff_ne.mpr (fun hh => h hh.symm)
      simp [dictSet, h, List.lookup_cons, hbe, ih]

theorem lookup_dictSet_ne {V : Type} (d : List (String × V)) (k k2 : String)
    (v : V) (h : k2 ≠ k) : (dictSet d k v).lookup k2 = d.lookup k2 := by
  have hbe : (k2 == k) = false := beq_eq_false_iff_ne.mpr h
  induction d with
  | nil => simp [dictSet, List.lookup_cons, hbe]
  | cons kv rest ih =>
    obtain ⟨k3, v3⟩ := kv
    by_cases hk : k3 = k
    · subst hk
      simp [dictSet, List.lookup_cons, hbe]
    · simp only [dictSet, if_neg hk, List.lookup_cons]
      cases hbe2 : k2 == k3 with
      | true => rfl
      | false => exact ih

theorem lookup_dictUpdate_notin {V : Type} (new : List (String × V)) :
    ∀ (d : List (String × V)) (k : String), new.lookup k = none →
      (dictUpdate d new).lookup k = d.lookup k := by
  induction new with
  | nil => intro d k _; rfl
  | cons ab rest ih =>
    obtain ⟨a, b⟩ := ab
    intro d k h
    simp only [List.lookup_cons] at h
    cases hbe : k == a with
    | true => rw [hbe] at h; cases h
    | false =>
      rw [hbe] at h
      have step : dictUpdate d ((a, b) :: rest) = dictUpdate (dictSet d a b) rest := rfl
      rw [step, ih (dictSet d a b) k h,
        lookup_dictSet_ne d a k b (by simpa using (beq_eq_false_iff_ne.mp hbe))]

theorem lookup_eq_none_of_notin {V : Type} (l : List (String × V)) (k : String)
    (h : k ∉ l.map Prod.fst) : l.lookup k = none := by
  induction l with
  | nil => rfl
  | cons ab rest ih =>
    obtain ⟨a, b⟩ := ab
    simp only [List.map_cons, List.mem_cons] at h
    push_neg at h
    have hbe : (k == a) = false := beq_eq_false_iff_ne.mpr h.1
    simp [List.lookup_cons, hbe, ih h.2]

theorem lookup_dictUpdate {V : Type} (new : List (String × V)) :
    ∀ (d : List (String × V)) (k : String), (new.map Prod.fst).Nodup →
      (dictUpdate d new).lookup k =
        (match new.lookup k with
         | some v => some v
         | none => d.lookup k) := by
  induction new with
  | nil => intro d k _; rfl
  | cons ab rest ih =>
    obtain ⟨a, b⟩ := ab
    intro d k hnd
    simp only [List.map_cons, List.nodup_cons] at hnd
    have step : dictUpdate d ((a, b) :: rest) = dictUpdate (dictSet d a b) rest := rfl
    rw [step, ih (dictSet d a b) k hnd.2]
    simp only [List.lookup_cons]
    cases hbe : k == a with
    | true =>
      have hka : k = a := by simpa using hbe
      subst hka
      rw [lookup_eq_none_of_notin rest k hnd.1, lookup_dictSet_self]
    | false =>
      cases hr : rest.lookup k with
      | some v => rfl
      | none =>
        rw [lookup_dictSet_ne d a k b (beq_eq_false_iff_ne.mp hbe)]

theorem lookup_filter_self {V : Type} (new : List (String × V)) (t : String) :
    (new.filter (fun kv => kv.1 ≠ t)).lookup t = none := by
  apply lookup_eq_none_of_notin
  intro hmem
  simp only [List.mem_map] at hmem
  obtain ⟨kv, hkv, hfst⟩ := hmem
  exact (of_decide_eq_true (List.mem_filter.mp hkv).2) hfst

theorem lookup_filter_ne {V : Type} (new : List (String × V)) (k t : String)
    (h : k ≠ t) :
    (new.filter (fun kv => kv.1 ≠ t)).lookup k = new.lookup k := by
  induction new with
  | nil => rfl
  | cons ab rest ih =>
    obtain ⟨a, b⟩ := ab
    rw [List.filter_cons]
    by_cases ha : a = t
    · have hc : (decide (a ≠ t)) = false := by simp [ha]
      rw [hc, if_neg Bool.false_ne_true]
      have hbe : (k == a) = false :=
        beq_eq_false_iff_ne.mpr (fun hh => h (ha ▸ hh))
      simp only [List.lookup_cons, hbe]
      exact ih
    · have hc : (decide (a ≠ t)) = true := by simp [ha]
      rw [hc, if_pos rfl]
      simp only [List.lookup_cons]
      cases hbe : k == a with
      | true => rfl
      | false => exact ih

/-- C9 (confirmed): updating the parameters of a session whose stored
parameters contain a `task_id` never changes that `task_id` — an incoming
`task_id` key is stripped before the merge and the original is re-injected
after it — while every other key of the payload is applied normally (new
value if present in the payload, otherwise the old value). -/
theorem C9_task_id_immutable {V : Type} (truthy : V → Bool)
    (store : List (String × TaskRecord V)) (sid : String)
    (new : List (String × V)) (now : String) (task : TaskRecord V) (x : V)
    (hlook : store.lookup sid = some task)
    (hx : task.parameters.lookup "task_id" = some x)
    (hnd : (new.map Prod.fst).Nodup) :
    (((update_task_parameters truthy store sid new now).2.lookup sid).bind
        (fun t => t.parameters.lookup "task_id")) = some x ∧
    (task.status = "active" →
      ∀ k, k ≠ "task_id" →
        (((update_task_parameters truthy store sid new now).2.lookup sid).bind
            (fun t => t.parameters.lookup k)) =
          (match new.lookup k with
           | some v => some v
           | none => task.parameters.lookup k)) := by
  simp only [update_task_parameters, hlook]
  by_cases hst : task.status = "active"
  · rw [if_pos hst]
    set new2 : List (String × V) :=
      if (new.lookup "task_id").isSome then
        new.filter (fun kv => kv.1 ≠ "task_id")
      else new with hnew2def
    have hnew2tid : new2.lookup "task_id" = none := by
      rw [hnew2def]
      split_ifs with hh
      · exact lookup_filter_self new "task_id"
      · exact Option.not_isSome_iff_eq_none.mp hh
    have hnew2k : ∀ k, k ≠ "task_id" → new2.lookup k = new.lookup k := by
      intro k hk
      rw [hnew2def]
      split_ifs with hh
      · exact lookup_filter_ne new k "task_id" hk
      · rfl
    have hnd2 : (new2.map Prod.fst).Nodup := by
      rw [hnew2def]
      split_ifs with hh
      · exact ((List.filter_sublist _).map Prod.fst).nodup hnd
      · exact hnd
    set params1 : List (String × V) := dictUpdate task.parameters new2
      with hp1def
    have hp1tid : params1.lookup "task_id" = some x := by
      rw [hp1def, lookup_dictUpdate_notin new2 task.parameters "task_id"
        hnew2tid]
      exact hx
    have hp1k : ∀ k, k ≠ "task_id" → params1.lookup k =
        (match new.lookup k with
         | some v => some v
         | none => task.parameters.lookup k) := by
      intro k hk
      rw [hp1def, lookup_dictUpdate new2 task.parameters k hnd2, hnew2k k hk]
    set params2 : List (String × V) :=
      match task.parameters.lookup "task_id" with
      | some tid => if truthy tid then dictSet params1 "task_id" tid
                    else params1
      | none => params1
      with hp2def
    have hp2tid : params2.lookup "task_id" = some x := by
      rw [hp2def]
      simp only [hx]
      split_ifs with ht
      · exact lookup_dictSet_self params1 "task_id" x
      · exact hp1tid
    have hp2k : ∀ k, k ≠ "task_id" → params2.lookup k = params1.lookup k := by
      intro k hk
      rw [hp2def]
      simp only [hx]
      split_ifs with ht
      · exact lookup_dictSet_ne params1 "task_id" k x hk
      · rfl
    rw [lookup_dictSet_self]
    constructor
    · simpa using hp2tid
    · intro _ k hk
      simp only [Option.some_bind]
      rw [hp2k k hk]
      exact hp1k k hk
  · rw [if_neg hst]
    constructor
    · simp [hlook, hx]
    · intro h; exact absurd h hst

/-- Witness for C9: a store with `task_id = "X"` merged with a payload
carrying `task_id = "Y"` and `color = "blue"` keeps `task_id = "X"`. -/
theorem C9_task_id_immutable_witness :
    (((update_task_parameters pyStrTruthy
          [("s1", ⟨"panel", [("task_id", "X"), ("color", "red")], "active",
            "t0", "t0"⟩)]
          "s1" [("task_id", "Y"), ("color", "blue")] "t1").2.lookup
        "s1").bind (fun t => t.parameters.lookup "task_id")) = some "X" :=
  (C9_task_id_immutable pyStrTruthy
    [("s1", ⟨"panel", [("task_id", "X"), ("color", "red")], "active", "t0",
      "t0"⟩)]
    "s1" [("task_id", "Y"), ("color", "blue")] "t1"
    ⟨"panel", [("task_id", "X"), ("color", "red")], "active", "t0", "t0"⟩
    "X" rfl rfl (by decide)).1
